import Mathlib

/-!
Verification development for the neutron-decay kinematics engine of the
`tntsim` simulation (header `src/include/TntNeutronDecay.hh`).

The repository ships the interface declarations of the decay engine
(`TntNeutronDecay`, `TntNeutronDecayFactory`, `TntNeutronDecayIntermediate`,
`TntNeutronEvaporation` and the four concrete decay algorithms) together with
a design specification; the implementation bodies of `Generate()`,
`TntNeutronEvaporation::operator()` and the base-class bookkeeping are not in
the provided sources, so those bodies are modelled from the specification, as
marked on each definition.  `G4double` is modelled by `ℚ` (exact arithmetic in
place of IEEE doubles), `G4String` by `String`, `G4LorentzVector` by a record
of four rationals.  Random sampling and floating-point square roots are
modelled as oracle-supplied values: each `Generate` receives a record of the
draws it consumes, and the defining equation of each square root (for the
two-body momentum magnitude) appears as a hypothesis or a validated field.
-/

/-- Three-vector of rationals, modelling `G4ThreeVector`. -/
structure Vec3 where
  x : ℚ
  y : ℚ
  z : ℚ
deriving DecidableEq, Repr

namespace Vec3

/-- Componentwise sum. -/
def add (a b : Vec3) : Vec3 := ⟨a.x + b.x, a.y + b.y, a.z + b.z⟩

/-- Componentwise negation. -/
def neg (a : Vec3) : Vec3 := ⟨-a.x, -a.y, -a.z⟩

/-- Scalar multiple. -/
def smul (c : ℚ) (a : Vec3) : Vec3 := ⟨c * a.x, c * a.y, c * a.z⟩

/-- Squared Euclidean norm. -/
def normSq (a : Vec3) : ℚ := a.x ^ 2 + a.y ^ 2 + a.z ^ 2

end Vec3

/-- Four-vector of rationals, modelling `G4LorentzVector`
(energy component `e`, momentum components `px`, `py`, `pz`). -/
structure LorentzVector where
  e : ℚ
  px : ℚ
  py : ℚ
  pz : ℚ
deriving DecidableEq, Repr

namespace LorentzVector

/-- The zero four-vector. -/
def zero : LorentzVector := ⟨0, 0, 0, 0⟩

/-- Componentwise sum of four-vectors. -/
def add (a b : LorentzVector) : LorentzVector :=
  ⟨a.e + b.e, a.px + b.px, a.py + b.py, a.pz + b.pz⟩

/-- The spatial (three-momentum) part. -/
def p3 (a : LorentzVector) : Vec3 := ⟨a.px, a.py, a.pz⟩

/-- Minkowski invariant mass squared, `e² − |p|²`. -/
def mSq (a : LorentzVector) : ℚ := a.e ^ 2 - a.px ^ 2 - a.py ^ 2 - a.pz ^ 2

end LorentzVector

instance : Add LorentzVector := ⟨LorentzVector.add⟩

theorem LorentzVector.add_def (a b : LorentzVector) :
    a + b = ⟨a.e + b.e, a.px + b.px, a.py + b.py, a.pz + b.pz⟩ := rfl

/-- Sum of a list of four-vectors. -/
def lvSum (l : List LorentzVector) : LorentzVector :=
  l.foldl LorentzVector.add LorentzVector.zero

/-- A rest-frame four-vector of mass `m`: energy `m`, zero three-momentum.
This is what a particle of mass `m` looks like in its own rest frame. -/
def restVector (m : ℚ) : LorentzVector := ⟨m, 0, 0, 0⟩

/-- Källén (triangle) function `λ(a,b,c) = a² + b² + c² − 2ab − 2bc − 2ca`,
governing the two-body breakup momentum via `4 m0² p² = λ(m0², mf², mn²)`. -/
def kallen (a b c : ℚ) : ℚ :=
  a ^ 2 + b ^ 2 + c ^ 2 - 2 * a * b - 2 * b * c - 2 * c * a

/-- A 4×4 rational matrix acting on four-vectors, modelling the Lorentz
boost `G4LorentzVector::boost` applied by the decay code when moving a
four-vector from one frame to another.  Row-major entries `aij`. -/
structure BoostMatrix where
  a00 : ℚ
  a01 : ℚ
  a02 : ℚ
  a03 : ℚ
  a10 : ℚ
  a11 : ℚ
  a12 : ℚ
  a13 : ℚ
  a20 : ℚ
  a21 : ℚ
  a22 : ℚ
  a23 : ℚ
  a30 : ℚ
  a31 : ℚ
  a32 : ℚ
  a33 : ℚ
deriving DecidableEq, Repr

namespace BoostMatrix

/-- Matrix action on a four-vector (component order `e, px, py, pz`). -/
def apply (B : BoostMatrix) (v : LorentzVector) : LorentzVector :=
  ⟨B.a00 * v.e + B.a01 * v.px + B.a02 * v.py + B.a03 * v.pz,
   B.a10 * v.e + B.a11 * v.px + B.a12 * v.py + B.a13 * v.pz,
   B.a20 * v.e + B.a21 * v.px + B.a22 * v.py + B.a23 * v.pz,
   B.a30 * v.e + B.a31 * v.px + B.a32 * v.py + B.a33 * v.pz⟩

/-- The identity transformation (a boost with zero velocity). -/
def id : BoostMatrix := ⟨1, 0, 0, 0, 0, 1, 0, 0, 0, 0, 1, 0, 0, 0, 0, 1⟩

theorem apply_add (B : BoostMatrix) (u v : LorentzVector) :
    B.apply (u + v) = B.apply u + B.apply v := by
  simp only [apply, LorentzVector.add_def, LorentzVector.mk.injEq]
  refine ⟨by ring, by ring, by ring, by ring⟩

theorem id_apply (v : LorentzVector) : BoostMatrix.id.apply v = v := by
  simp only [apply, id]
  cases v with
  | mk e px py pz => simp only [LorentzVector.mk.injEq]; refine ⟨by ring, by ring, by ring, by ring⟩

end BoostMatrix

/-- `B` preserves the Minkowski form: the ten entries of `Bᵀ η B − η`
vanish, where `η = diag(1,−1,−1,−1)`.  This is the decidable statement that
`B` is a (proper or improper) Lorentz transformation, which every boost
constructed by `G4LorentzVector::boost` is. -/
def IsLorentz (B : BoostMatrix) : Prop :=
  B.a00 ^ 2 - B.a10 ^ 2 - B.a20 ^ 2 - B.a30 ^ 2 = 1 ∧
  B.a01 ^ 2 - B.a11 ^ 2 - B.a21 ^ 2 - B.a31 ^ 2 = -1 ∧
  B.a02 ^ 2 - B.a12 ^ 2 - B.a22 ^ 2 - B.a32 ^ 2 = -1 ∧
  B.a03 ^ 2 - B.a13 ^ 2 - B.a23 ^ 2 - B.a33 ^ 2 = -1 ∧
  B.a00 * B.a01 - B.a10 * B.a11 - B.a20 * B.a21 - B.a30 * B.a31 = 0 ∧
  B.a00 * B.a02 - B.a10 * B.a12 - B.a20 * B.a22 - B.a30 * B.a32 = 0 ∧
  B.a00 * B.a03 - B.a10 * B.a13 - B.a20 * B.a23 - B.a30 * B.a33 = 0 ∧
  B.a01 * B.a02 - B.a11 * B.a12 - B.a21 * B.a22 - B.a31 * B.a32 = 0 ∧
  B.a01 * B.a03 - B.a11 * B.a13 - B.a21 * B.a23 - B.a31 * B.a33 = 0 ∧
  B.a02 * B.a03 - B.a12 * B.a13 - B.a22 * B.a23 - B.a32 * B.a33 = 0

theorem IsLorentz.mSq_apply {B : BoostMatrix} (h : IsLorentz B) (v : LorentzVector) :
    (B.apply v).mSq = v.mSq := by
  obtain ⟨h1, h2, h3, h4, h5, h6, h7, h8, h9, h10⟩ := h
  simp only [BoostMatrix.apply, LorentzVector.mSq]
  linear_combination (v.e ^ 2) * h1 + (v.px ^ 2) * h2 + (v.py ^ 2) * h3 + (v.pz ^ 2) * h4 +
    (2 * v.e * v.px) * h5 + (2 * v.e * v.py) * h6 + (2 * v.e * v.pz) * h7 +
    (2 * v.px * v.py) * h8 + (2 * v.px * v.pz) * h9 + (2 * v.py * v.pz) * h10

theorem isLorentz_id : IsLorentz BoostMatrix.id := by
  unfold IsLorentz BoostMatrix.id
  norm_num

/-- Modelled from the spec: `TntNeutronEvaporation::operator()` (body not in
the provided sources).  Given the parent mass `m0`, fragment mass `mf` and
neutron mass `mn`, it computes the fragment and neutron four-vectors of the
unique two-body breakup in the parent's rest frame: energies from the
closed-form two-body kinematics `Ef = (m0² + mf² − mn²)/(2 m0)`,
`En = (m0² + mn² − mf²)/(2 m0)`, and back-to-back three-momenta `∓ p · u`
along the isotropically sampled unit direction `u`.  The momentum magnitude
`p` — computed in the code by a floating-point square root of the Källén
function, `p = √λ(m0², mf², mn²)/(2 m0)` — is passed in as the oracle value
`p`; theorems constrain it by its defining equation
`4 m0² p² = λ(m0², mf², mn²)`.  Returns `(fragment, neutron)`. -/
def TntNeutronEvaporation (m0 mf mn p : ℚ) (u : Vec3) :
    LorentzVector × LorentzVector :=
  (⟨(m0 ^ 2 + mf ^ 2 - mn ^ 2) / (2 * m0), -(p * u.x), -(p * u.y), -(p * u.z)⟩,
   ⟨(m0 ^ 2 + mn ^ 2 - mf ^ 2) / (2 * m0), p * u.x, p * u.y, p * u.z⟩)

theorem evaporation_conserves (m0 mf mn p : ℚ) (u : Vec3) (h0 : m0 ≠ 0) :
    (TntNeutronEvaporation m0 mf mn p u).1 + (TntNeutronEvaporation m0 mf mn p u).2 =
      restVector m0 := by
  simp only [TntNeutronEvaporation, LorentzVector.add_def, restVector, LorentzVector.mk.injEq]
  refine ⟨?_, by ring, by ring, by ring⟩
  field_simp
  ring

/-- Neutron rest mass in MeV, modelling the constant neutron mass used by the
decay code (`G4Neutron` mass ≈ 939.565 MeV). -/
def kNeutronMass : ℚ := 939565 / 1000

/-- Modelled from the spec: the view of a `TntParticle` consumed by the decay
engine (the `TntParticle` class itself is not in the provided sources).  Per
spec §3 it supplies a rest mass, a four-momentum and an excitation energy
above the particle-emission threshold; the four-momentum is represented by
the Lorentz transformation `boost` from the particle's rest frame to the lab
frame (the code obtains it as `G4LorentzVector::boostVector()`), so the lab
four-vector of a rest-frame vector `v` is `boost.apply v`.  `fragGSMass` and
`intermediateGSMass` are the ground-state masses of the final decay fragment
and (for sequential decay) of the intermediate fragment, which the
`SetInputParticle` bookkeeping of spec §4.3/§4.7 derives from the particle. -/
structure TntParticle where
  m : ℚ
  ex : ℚ
  boost : BoostMatrix
  fragGSMass : ℚ
  intermediateGSMass : ℚ
deriving DecidableEq, Repr

/-- Modelled from the spec: the mutable state of a
`TntNeutronDecayIntermediate` instance, mirroring the private/protected data
members declared in the header (`mNumberOfNeutronsEmitted`, `mParams`,
`mFinal`, `fVerb`, `mFinalFragMass`, `mInitial`, `mRngEx`) plus the public
`mIntermediateFragMass` field of `TntTwoNeutronDecaySequential`.  The RNG
pointer is modelled as an opaque identifier. -/
structure DecayState where
  mNumberOfNeutronsEmitted : ℕ
  mParams : List (String × ℚ)
  mFinal : List LorentzVector
  fVerb : ℤ
  mFinalFragMass : ℚ
  mInitial : Option TntParticle
  mRngEx : Option ℕ
  mIntermediateFragMass : ℚ
deriving DecidableEq

/-- Modelled from the spec: assignment into the `std::map<G4String,G4double>`
parameter store (`mParams[par] = val` semantics of `SetDecayParam`, whose
body is not in the provided sources): replace the binding of `k` if present,
otherwise append it. -/
def setParam : List (String × ℚ) → String → ℚ → List (String × ℚ)
  | [], k, v => [(k, v)]
  | (k1, v1) :: t, k, v =>
      if k1 = k then (k, v) :: t else (k1, v1) :: setParam t k v

/-- Modelled from the spec: lookup in the parameter store (`GetDecayParam`,
body not in the provided sources).  The behaviour on a never-set key is left
open by the spec; the model returns `0` there (the value `std::map::operator[]`
would default-construct), and no theorem depends on that choice. -/
def lookupParam : List (String × ℚ) → String → ℚ
  | [], _ => 0
  | (k1, v) :: t, k => if k1 = k then v else lookupParam t k

/-- Modelled from the spec: the constructor
`TntNeutronDecayIntermediate(number_of_neutrons_emitted)` (body not in the
provided sources): records the multiplicity and sizes the final-state store
to multiplicity + 2 (index 0 = initial state, 1 = fragment, 2.. = neutrons,
spec §3). -/
def mkIntermediate (n : ℕ) : DecayState :=
  ⟨n, [], List.replicate (n + 2) LorentzVector.zero, 0, 0, none, none, 0⟩

/-- Modelled from the spec: the oracle record of random draws and
floating-point square-root results consumed by one `TntOneNeutronDecay`
generation: `bw` is the Breit-Wigner decay-energy draw (used only when the
"width" parameter is nonzero), `p` the two-body momentum magnitude (the
code's `√λ/(2 m0)`), and `u` the isotropically sampled unit emission
direction. -/
structure RngDraw1 where
  bw : ℚ
  p : ℚ
  u : Vec3
deriving DecidableEq, Repr

/-- Modelled from the spec: the oracle record consumed by one two-neutron
generation: `mSub` is the sampled mass quantity of the intermediate two-body
subsystem (the nn invariant mass for phase space, the dineutron effective
mass for dineutron, the intermediate-state excitation for sequential), `p1`,
`u1` the momentum magnitude and direction of the first two-body breakup,
`p2`, `u2` those of the second, and `b` the Lorentz boost from the
intermediate subsystem's rest frame back to the parent rest frame (the code
builds it from the subsystem four-vector of the first breakup). -/
structure RngDraw2 where
  mSub : ℚ
  p1 : ℚ
  u1 : Vec3
  p2 : ℚ
  u2 : Vec3
  b : BoostMatrix
deriving DecidableEq, Repr

/-- Modelled from the spec (§4.4): the decay energy sampled by
`TntOneNeutronDecay::Generate` — the configured "energy" centroid exactly
when the configured "width" is zero (delta spike), otherwise the
Breit-Wigner draw supplied by the random source. -/
def sampleDecayEnergy (st : DecayState) (r : RngDraw1) : ℚ :=
  if lookupParam st.mParams "width" = 0 then lookupParam st.mParams "energy" else r.bw

/-- Modelled from the spec (§4.4): `TntOneNeutronDecay::Generate` (body not
in the provided sources).  Requires a prior `SetInputParticle`.  Samples a
decay energy, fails (returns `none`, i.e. `false`) when it is negative or
exceeds the available excitation energy; otherwise forms the unbound-state
mass `m0 = mFinalFragMass + mNeutron + eDecay`, performs the two-body
evaporation in the parent rest frame and boosts everything to the lab frame,
returning the final-state list `[initial, fragment, neutron]`. -/
def oneNeutronGenerate (st : DecayState) (r : RngDraw1) : Option (List LorentzVector) :=
  match st.mInitial with
  | none => none
  | some part =>
      let eDecay := sampleDecayEnergy st r
      if eDecay < 0 ∨ part.ex < eDecay then none
      else
        let m0 := st.mFinalFragMass + kNeutronMass + eDecay
        let fn := TntNeutronEvaporation m0 st.mFinalFragMass kNeutronMass r.p r.u
        some [part.boost.apply (restVector m0),
              part.boost.apply fn.1,
              part.boost.apply fn.2]

/-- Modelled from the spec (§4.5): `TntTwoNeutronDecayPhaseSpace::Generate`
(body not in the provided sources).  Fails when the excitation energy is
below the two-neutron separation threshold; otherwise the three-body mass is
`m0 = mFinalFragMass + 2 mNeutron + ex`, the nn-subsystem invariant mass
`mSub` accepted by the rejection scheme must lie on the Dalitz boundary
`2 mNeutron ≤ mSub ≤ m0 − mFinalFragMass` (a draw outside it is rejected,
i.e. not a successful sample), and the final state is built by two sequential
two-body breakups: `m0 → fragment + (nn)` in the parent rest frame, then
`mSub → n + n` in the nn rest frame, boosted back with `r.b`.  The `fsi`
flag only reweights the acceptance probability of the draws (PLB 476, 219);
it does not change the kinematic construction of an accepted sample. -/
def twoNeutronPhaseSpaceGenerate (fsi : Bool) (st : DecayState) (r : RngDraw2) :
    Option (List LorentzVector) :=
  match st.mInitial with
  | none => none
  | some part =>
      if part.ex < 0 then none
      else
        let m0 := st.mFinalFragMass + 2 * kNeutronMass + part.ex
        if r.mSub < 2 * kNeutronMass ∨ m0 - st.mFinalFragMass < r.mSub then none
        else
          let fs1 := TntNeutronEvaporation m0 st.mFinalFragMass r.mSub r.p1 r.u1
          let fs2 := TntNeutronEvaporation r.mSub kNeutronMass kNeutronMass r.p2 r.u2
          some [part.boost.apply (restVector m0),
                part.boost.apply fs1.1,
                part.boost.apply (r.b.apply fs2.1),
                part.boost.apply (r.b.apply fs2.2)]

/-- Modelled from the spec (§4.6): `TntTwoNeutronDecayDiNeutron::Generate`
(body not in the provided sources).  The two neutrons form a "dineutron"
quasi-particle whose effective mass `mSub` is drawn from the Volya
correlation model, subject to `2 mNeutron ≤ mSub` and to the first breakup
being energetically possible (`mSub ≤ m0 − mFinalFragMass`); the fragment
and dineutron are produced by a two-body evaporation, the dineutron then
decays into its two neutrons in its own rest frame, and both are boosted
back with `r.b`. -/
def twoNeutronDiNeutronGenerate (st : DecayState) (r : RngDraw2) :
    Option (List LorentzVector) :=
  match st.mInitial with
  | none => none
  | some part =>
      if part.ex < 0 then none
      else
        let m0 := st.mFinalFragMass + 2 * kNeutronMass + part.ex
        if r.mSub < 2 * kNeutronMass ∨ m0 - st.mFinalFragMass < r.mSub then none
        else
          let fs1 := TntNeutronEvaporation m0 st.mFinalFragMass r.mSub r.p1 r.u1
          let fs2 := TntNeutronEvaporation r.mSub kNeutronMass kNeutronMass r.p2 r.u2
          some [part.boost.apply (restVector m0),
                part.boost.apply fs1.1,
                part.boost.apply (r.b.apply fs2.1),
                part.boost.apply (r.b.apply fs2.2)]

/-- Modelled from the spec (§4.7): `TntTwoNeutronDecaySequential::Generate`
(body not in the provided sources).  Step 1 evaporates the first neutron,
leaving an intermediate excited fragment of mass
`mi = mIntermediateFragMass + mSub` (configured intermediate ground-state
mass plus the sampled intermediate excitation); step 2 evaporates the second
neutron from that intermediate fragment in its own rest frame (boost `r.b`
back to the parent frame).  Fails if either step's parent mass is
insufficient for its own breakup.  Final-state order: initial, final
fragment, first neutron, second neutron. -/
def twoNeutronSequentialGenerate (st : DecayState) (r : RngDraw2) :
    Option (List LorentzVector) :=
  match st.mInitial with
  | none => none
  | some part =>
      if part.ex < 0 then none
      else
        let m0 := st.mFinalFragMass + 2 * kNeutronMass + part.ex
        let mi := st.mIntermediateFragMass + r.mSub
        if m0 < mi + kNeutronMass ∨ mi < st.mFinalFragMass + kNeutronMass then none
        else
          let fs1 := TntNeutronEvaporation m0 mi kNeutronMass r.p1 r.u1
          let fs2 := TntNeutronEvaporation mi st.mFinalFragMass kNeutronMass r.p2 r.u2
          some [part.boost.apply (restVector m0),
                part.boost.apply (r.b.apply fs2.1),
                part.boost.apply fs1.2,
                part.boost.apply (r.b.apply fs2.2)]

/-- The four concrete decay algorithms of the header. -/
inductive Alg where
  | oneNeutron : Alg
  | phaseSpace : Bool → Alg
  | diNeutron : Alg
  | sequential : Alg
deriving DecidableEq, Repr

/-- The statically configured neutron multiplicity of each concrete type
(the `number_of_neutrons_emitted` each constructor passes to the base). -/
def Alg.multiplicity : Alg → ℕ
  | .oneNeutron => 1
  | .phaseSpace _ => 2
  | .diNeutron => 2
  | .sequential => 2

/-- Dispatch of `Generate()` over the concrete algorithm: the produced
final-state list on success, `none` on failure. -/
def genResult (alg : Alg) (st : DecayState) (r1 : RngDraw1) (r2 : RngDraw2) :
    Option (List LorentzVector) :=
  match alg with
  | .oneNeutron => oneNeutronGenerate st r1
  | .phaseSpace fsi => twoNeutronPhaseSpaceGenerate fsi st r2
  | .diNeutron => twoNeutronDiNeutronGenerate st r2
  | .sequential => twoNeutronSequentialGenerate st r2

/-- The operations of the `TntNeutronDecay` interface that mutate a decay
instance, as declared in the header.  `generate` carries the oracle records
of the random draws consumed by that call. -/
inductive DecayOp where
  | setInputParticle : TntParticle → DecayOp
  | setRngEx : ℕ → DecayOp
  | setVerboseLevel : ℤ → DecayOp
  | setDecayParam : String → ℚ → DecayOp
  | generate : RngDraw1 → RngDraw2 → DecayOp
deriving DecidableEq

/-- Modelled from the spec (§4.3, §4.7):
`TntNeutronDecayIntermediate::SetInputParticle` (body not in the provided
sources) records the input particle and derives the final-fragment
ground-state mass from it; the `TntTwoNeutronDecaySequential` override also
sets the public `mIntermediateFragMass` field from the particle. -/
def setInputParticle (alg : Alg) (st : DecayState) (p : TntParticle) : DecayState :=
  { st with
    mInitial := some p
    mFinalFragMass := p.fragGSMass
    mIntermediateFragMass :=
      if alg = Alg.sequential then p.intermediateGSMass else st.mIntermediateFragMass }

/-- One mutating interface call on a decay instance.  A successful
`Generate` overwrites the final-state store with the produced list; a failed
one leaves the store untouched (stale, per spec §3). -/
def step (alg : Alg) (st : DecayState) : DecayOp → DecayState
  | .setInputParticle p => setInputParticle alg st p
  | .setRngEx n => { st with mRngEx := some n }
  | .setVerboseLevel l => { st with fVerb := l }
  | .setDecayParam k v => { st with mParams := setParam st.mParams k v }
  | .generate r1 r2 =>
      match genResult alg st r1 r2 with
      | none => st
      | some fs => { st with mFinal := fs }

/-- A lifecycle: the sequence of mutating calls applied to a state. -/
def run (alg : Alg) (st : DecayState) (ops : List DecayOp) : DecayState :=
  ops.foldl (step alg) st

/-- The freshly constructed state of a concrete decay instance (each
constructor passes its static multiplicity to the base constructor). -/
def tntInit (alg : Alg) : DecayState := mkIntermediate alg.multiplicity

/-- `GetFinal(indx)`, modelled from the spec: returns the stored four-vector
at `indx` when `0 ≤ indx ≤ multiplicity + 1`; out-of-range access is a
precondition violation (undefined behaviour on the `std::vector` store),
modelled as `none`. -/
def GetFinal (st : DecayState) (indx : ℕ) : Option LorentzVector :=
  st.mFinal.get? indx

/-- `GetNumberOfNeutrons()`, inline in the header: returns
`mNumberOfNeutronsEmitted`. -/
def GetNumberOfNeutrons (st : DecayState) : ℕ := st.mNumberOfNeutronsEmitted

/-- `GetDecayParam(par)`, reading the parameter store. -/
def GetDecayParam (st : DecayState) (par : String) : ℚ := lookupParam st.mParams par

/-- The factory class `TntNeutronDecayFactory`, whose members
`SetDecayType`, `GetDecayType` and `SetDecayOption` are defined inline in
the header: a decay-type string and an option map. -/
structure TntNeutronDecayFactory where
  fDecayType : String
  mOptions : List (String × ℚ)
deriving DecidableEq

namespace TntNeutronDecayFactory

/-- A default-constructed factory: empty `G4String`, empty option map. -/
def mk0 : TntNeutronDecayFactory := ⟨"", []⟩

/-- `SetDecayType(type) { fDecayType = type; }` (inline in the header). -/
def SetDecayType (f : TntNeutronDecayFactory) (type : String) : TntNeutronDecayFactory :=
  { f with fDecayType := type }

/-- `GetDecayType() { return fDecayType; }` (inline in the header). -/
def GetDecayType (f : TntNeutronDecayFactory) : String := f.fDecayType

/-- `SetDecayOption(option, value) { mOptions[option] = value; }` (inline in
the header). -/
def SetDecayOption (f : TntNeutronDecayFactory) (option : String) (value : ℚ) :
    TntNeutronDecayFactory :=
  { f with mOptions := setParam f.mOptions option value }

end TntNeutronDecayFactory

/-- A call on the factory's mutating interface. -/
inductive FactoryOp where
  | setDecayType : String → FactoryOp
  | setDecayOption : String → ℚ → FactoryOp
deriving DecidableEq

/-- One factory call. -/
def factoryStep (f : TntNeutronDecayFactory) : FactoryOp → TntNeutronDecayFactory
  | .setDecayType t => f.SetDecayType t
  | .setDecayOption k v => f.SetDecayOption k v

/-- A sequence of factory calls. -/
def factoryRun (f : TntNeutronDecayFactory) (ops : List FactoryOp) : TntNeutronDecayFactory :=
  ops.foldl factoryStep f

/-- The string most recently passed to `SetDecayType` in `ops`, starting
from `s` ("most recently passed" read off the spec of the accessor). -/
def lastDecayType (s : String) : List FactoryOp → String
  | [] => s
  | .setDecayType t :: rest => lastDecayType t rest
  | .setDecayOption _ _ :: rest => lastDecayType s rest

theorem lv_zero_add (a : LorentzVector) : LorentzVector.add LorentzVector.zero a = a := by
  cases a
  simp [LorentzVector.add, LorentzVector.zero]

theorem lv_add_eq (a b : LorentzVector) : LorentzVector.add a b = a + b := rfl

theorem lookupParam_setParam_same (ps : List (String × ℚ)) (k : String) (v : ℚ) :
    lookupParam (setParam ps k v) k = v := by
  induction ps with
  | nil => simp [setParam, lookupParam]
  | cons h t ih =>
      by_cases hk : h.1 = k
      · simp [setParam, hk, lookupParam]
      · simp [setParam, hk, lookupParam, ih]

theorem lookupParam_setParam_ne (ps : List (String × ℚ)) (k1 k : String) (v : ℚ)
    (hne : k1 ≠ k) : lookupParam (setParam ps k1 v) k = lookupParam ps k := by
  induction ps with
  | nil => simp [setParam, lookupParam, hne]
  | cons h t ih =>
      by_cases hk : h.1 = k1
      · simp [setParam, hk, lookupParam, hne]
      · simp only [setParam, hk, if_false, lookupParam, ih]

theorem step_neutrons (alg : Alg) (st : DecayState) (op : DecayOp) :
    (step alg st op).mNumberOfNeutronsEmitted = st.mNumberOfNeutronsEmitted := by
  cases op with
  | setInputParticle p => simp [step, setInputParticle]
  | setRngEx n => simp [step]
  | setVerboseLevel l => simp [step]
  | setDecayParam k v => simp [step]
  | generate r1 r2 =>
      simp only [step]
      cases genResult alg st r1 r2 <;> simp

theorem genResult_length (alg : Alg) (st : DecayState) (r1 : RngDraw1) (r2 : RngDraw2)
    (fs : List LorentzVector) (h : genResult alg st r1 r2 = some fs) :
    fs.length = alg.multiplicity + 2 := by
  cases alg with
  | oneNeutron =>
      simp only [genResult, oneNeutronGenerate] at h
      cases hin : st.mInitial with
      | none => rw [hin] at h; cases h
      | some part =>
          rw [hin] at h
          simp only at h
          split at h
          · cases h
          · cases h; rfl
  | phaseSpace fsi =>
      simp only [genResult, twoNeutronPhaseSpaceGenerate] at h
      cases hin : st.mInitial with
      | none => rw [hin] at h; cases h
      | some part =>
          rw [hin] at h
          simp only at h
          split at h
          · cases h
          · split at h
            · cases h
            · cases h; rfl
  | diNeutron =>
      simp only [genResult, twoNeutronDiNeutronGenerate] at h
      cases hin : st.mInitial with
      | none => rw [hin] at h; cases h
      | some part =>
          rw [hin] at h
          simp only at h
          split at h
          · cases h
          · split at h
            · cases h
            · cases h; rfl
  | sequential =>
      simp only [genResult, twoNeutronSequentialGenerate] at h
      cases hin : st.mInitial with
      | none => rw [hin] at h; cases h
      | some part =>
          rw [hin] at h
          simp only at h
          split at h
          · cases h
          · split at h
            · cases h
            · cases h; rfl

theorem step_final_length (alg : Alg) (st : DecayState) (op : DecayOp)
    (h : st.mFinal.length = alg.multiplicity + 2) :
    (step alg st op).mFinal.length = alg.multiplicity + 2 := by
  cases op with
  | setInputParticle p => simpa [step, setInputParticle] using h
  | setRngEx n => simpa [step] using h
  | setVerboseLevel l => simpa [step] using h
  | setDecayParam k v => simpa [step] using h
  | generate r1 r2 =>
      simp only [step]
      cases hg : genResult alg st r1 r2 with
      | none => simpa using h
      | some fs => simpa using genResult_length alg st r1 r2 fs hg

theorem run_inv (alg : Alg) (P : DecayState → Prop)
    (hstep : ∀ st op, P st → P (step alg st op)) :
    ∀ ops st, P st → P (run alg st ops) := by
  intro ops
  induction ops with
  | nil => intro st h; exact h
  | cons op rest ih =>
      intro st h
      exact ih (step alg st op) (hstep st op h)

theorem run_invariants (alg : Alg) (ops : List DecayOp) :
    (run alg (tntInit alg) ops).mNumberOfNeutronsEmitted = alg.multiplicity ∧
    (run alg (tntInit alg) ops).mFinal.length = alg.multiplicity + 2 :=
  run_inv alg
    (fun st => st.mNumberOfNeutronsEmitted = alg.multiplicity ∧
      st.mFinal.length = alg.multiplicity + 2)
    (fun st op hP => ⟨by rw [step_neutrons]; exact hP.1, step_final_length alg st op hP.2⟩)
    ops (tntInit alg)
    ⟨rfl, by simp [tntInit, mkIntermediate]⟩

/-- C4: at every point of the lifecycle of any concrete decay instance,
`GetNumberOfNeutrons()` returns the statically configured multiplicity of
its concrete type (1 for `TntOneNeutronDecay`, 2 for the three two-neutron
variants), no interface operation changes it, and the final-state sequence
always has the fixed length multiplicity + 2 (index 0 = initial state,
1 = final fragment, 2.. = neutrons). -/
theorem tnt_multiplicity_static (alg : Alg) (ops : List DecayOp) :
    GetNumberOfNeutrons (run alg (tntInit alg) ops) = alg.multiplicity ∧
    (run alg (tntInit alg) ops).mFinal.length = alg.multiplicity + 2 :=
  ⟨(run_invariants alg ops).1, (run_invariants alg ops).2⟩

/-- C5: `GetFinal(indx)` is valid exactly on `0 ≤ indx ≤ multiplicity + 1`:
at every point of the lifecycle an index in that range returns a stored
four-vector, an index outside it is a precondition violation (no stored
vector exists there), and after a successful `Generate()` the indices
return exactly the four-vectors produced by that generation. -/
theorem tnt_getfinal_index_range (alg : Alg) (ops : List DecayOp) (st : DecayState)
    (indx : ℕ) (r1 : RngDraw1) (r2 : RngDraw2) (fs : List LorentzVector)
    (hst : st = run alg (tntInit alg) ops) :
    (indx ≤ alg.multiplicity + 1 → (GetFinal st indx).isSome = true) ∧
    (alg.multiplicity + 1 < indx → GetFinal st indx = none) ∧
    (genResult alg st r1 r2 = some fs →
      GetFinal (step alg st (DecayOp.generate r1 r2)) indx = fs.get? indx) := by
  have hlen : st.mFinal.length = alg.multiplicity + 2 := by
    rw [hst]
    exact (run_invariants alg ops).2
  refine ⟨?_, ?_, ?_⟩
  · intro hindx
    have hlt : indx < st.mFinal.length := by omega
    rw [GetFinal, List.get?_eq_get hlt]
    rfl
  · intro hindx
    apply List.get?_eq_none.mpr
    omega
  · intro hgen
    simp only [GetFinal, step, hgen]

/-- A unit direction with rational components, usable as a concrete sampled
emission direction. -/
def uW : Vec3 := ⟨3/5, 4/5, 0⟩

/-- A concrete draw record for one-neutron generation. -/
def r1W : RngDraw1 := ⟨0, 0, uW⟩

/-- A concrete draw record for two-neutron generation (identity inner boost). -/
def r2W : RngDraw2 := ⟨2 * kNeutronMass, 0, uW, 0, uW, BoostMatrix.id⟩

/-- Witness for C5 at the freshly constructed one-neutron instance. -/
theorem tnt_getfinal_index_range_witness :
    (0 ≤ Alg.oneNeutron.multiplicity + 1 →
      (GetFinal (run Alg.oneNeutron (tntInit Alg.oneNeutron) []) 0).isSome = true) ∧
    (Alg.oneNeutron.multiplicity + 1 < 0 →
      GetFinal (run Alg.oneNeutron (tntInit Alg.oneNeutron) []) 0 = none) ∧
    (genResult Alg.oneNeutron (run Alg.oneNeutron (tntInit Alg.oneNeutron) []) r1W r2W = some [] →
      GetFinal (step Alg.oneNeutron (run Alg.oneNeutron (tntInit Alg.oneNeutron) [])
        (DecayOp.generate r1W r2W)) 0 = List.get? [] 0) := by
  have h := tnt_getfinal_index_range Alg.oneNeutron [] _ 0 r1W r2W [] rfl
  exact ⟨fun _ => h.1 (by omega), h.2.1, h.2.2⟩

/-- C6: for `TntOneNeutronDecay`, when the "width" parameter is zero the
sampled decay energy equals the configured "energy" centroid exactly and is
the same for every state of the random source; when "width" is nonzero the
sampled decay energy is the Breit-Wigner draw supplied by the random
source. -/
theorem tnt_breit_wigner_spike (st : DecayState) (r r2 : RngDraw1) :
    (GetDecayParam st "width" = 0 →
      sampleDecayEnergy st r = GetDecayParam st "energy" ∧
      sampleDecayEnergy st r = sampleDecayEnergy st r2) ∧
    (GetDecayParam st "width" ≠ 0 → sampleDecayEnergy st r = r.bw) := by
  constructor
  · intro hw
    rw [GetDecayParam] at hw
    simp [sampleDecayEnergy, hw, GetDecayParam]
  · intro hw
    rw [GetDecayParam] at hw
    simp [sampleDecayEnergy, hw]

/-- Witness for C6: with "width" set to 0 and "energy" set to 5/2, two
different random draws both sample exactly 5/2. -/
theorem tnt_breit_wigner_spike_witness :
    sampleDecayEnergy ⟨1, [("width", 0), ("energy", 5/2)], [], 0, 0, none, none, 0⟩ r1W =
      GetDecayParam ⟨1, [("width", 0), ("energy", 5/2)], [], 0, 0, none, none, 0⟩ "energy" ∧
    sampleDecayEnergy ⟨1, [("width", 0), ("energy", 5/2)], [], 0, 0, none, none, 0⟩ r1W =
      sampleDecayEnergy ⟨1, [("width", 0), ("energy", 5/2)], [], 0, 0, none, none, 0⟩ ⟨7, 1, uW⟩ :=
  (tnt_breit_wigner_spike ⟨1, [("width", 0), ("energy", 5/2)], [], 0, 0, none, none, 0⟩
    r1W ⟨7, 1, uW⟩).1 (by simp [GetDecayParam, lookupParam])

theorem step_mParams_of_not_setParam (alg : Alg) (st : DecayState) (op : DecayOp)
    (h : ∀ k v, op ≠ DecayOp.setDecayParam k v) : (step alg st op).mParams = st.mParams := by
  cases op with
  | setInputParticle p => simp [step, setInputParticle]
  | setRngEx n => simp [step]
  | setVerboseLevel l => simp [step]
  | setDecayParam k v => exact absurd rfl (h k v)
  | generate r1 r2 =>
      simp only [step]
      cases genResult alg st r1 r2 <;> simp

theorem run_lookup_of_no_setParam (alg : Alg) (k : String) :
    ∀ ops st, (∀ op ∈ ops, ∀ v, op ≠ DecayOp.setDecayParam k v) →
      lookupParam (run alg st ops).mParams k = lookupParam st.mParams k := by
  intro ops
  induction ops with
  | nil => intro st _; rfl
  | cons op rest ih =>
      intro st hops
      have hrest : ∀ o ∈ rest, ∀ v, o ≠ DecayOp.setDecayParam k v :=
        fun o ho v => hops o (List.mem_cons_of_mem op ho) v
      rw [run, List.foldl_cons, ← run, ih (step alg st op) hrest]
      cases op with
      | setDecayParam k1 v1 =>
          have hk1 : k1 ≠ k := by
            intro h
            exact hops (DecayOp.setDecayParam k1 v1) (List.mem_cons_self _ _) v1 (by rw [h])
          simp [step, lookupParam_setParam_ne st.mParams k1 k v1 hk1]
      | setInputParticle p => simp [step, setInputParticle]
      | setRngEx n => simp [step]
      | setVerboseLevel l => simp [step]
      | generate r1 r2 =>
          simp only [step]
          cases genResult alg st r1 r2 <;> simp

/-- C7: after `SetDecayParam(k, v)`, any sequence of interface calls with no
intervening `SetDecayParam` on `k` (other parameters may be set, input
particles assigned, generations run) leaves `GetDecayParam(k) = v`; and no
operation other than `SetDecayParam` mutates the parameter store at all. -/
theorem tnt_param_set_get (alg : Alg) (st : DecayState) (k : String) (v : ℚ)
    (ops : List DecayOp) (op1 : DecayOp)
    (hops : ∀ op ∈ ops, ∀ v2, op ≠ DecayOp.setDecayParam k v2)
    (hop1 : ∀ k2 v2, op1 ≠ DecayOp.setDecayParam k2 v2) :
    GetDecayParam (run alg (step alg st (DecayOp.setDecayParam k v)) ops) k = v ∧
    (step alg st op1).mParams = st.mParams := by
  constructor
  · rw [GetDecayParam, run_lookup_of_no_setParam alg k ops _ hops]
    simp [step, lookupParam_setParam_same]
  · exact step_mParams_of_not_setParam alg st op1 hop1

/-- Witness for C7: set "energy" to 7, then set "width", set verbosity and
run a generation; reading "energy" still gives 7, and the verbosity call
left the parameter store untouched. -/
theorem tnt_param_set_get_witness :
    GetDecayParam (run Alg.oneNeutron
      (step Alg.oneNeutron (tntInit Alg.oneNeutron) (DecayOp.setDecayParam "energy" 7))
      [DecayOp.setDecayParam "width" 2, DecayOp.setVerboseLevel 1,
       DecayOp.generate r1W r2W]) "energy" = 7 ∧
    (step Alg.oneNeutron (tntInit Alg.oneNeutron) (DecayOp.setVerboseLevel 1)).mParams =
      (tntInit Alg.oneNeutron).mParams :=
  tnt_param_set_get Alg.oneNeutron (tntInit Alg.oneNeutron) "energy" 7
    [DecayOp.setDecayParam "width" 2, DecayOp.setVerboseLevel 1, DecayOp.generate r1W r2W]
    (DecayOp.setVerboseLevel 1)
    (by intro op hop v2; fin_cases hop <;> simp)
    (by intro k2 v2; simp)

/-- C9: the engine's output is a deterministic function of the instance
state (input particle, parameters, RNG) and of the random draws: two runs
of the same algorithm from equal states through equal call sequences (in
particular, random sources that deliver identical draws) yield final-state
sequences that agree at every index. -/
theorem tnt_determinism (alg : Alg) (st1 st2 : DecayState)
    (ops1 ops2 : List DecayOp) (indx : ℕ)
    (hst : st1 = st2) (hops : ops1 = ops2) :
    GetFinal (run alg st1 ops1) indx = GetFinal (run alg st2 ops2) indx := by
  rw [hst, hops]

/-- Witness for C9: two identically seeded one-neutron lifecycles agree at
index 2 (the neutron vector). -/
theorem tnt_determinism_witness :
    GetFinal (run Alg.oneNeutron (tntInit Alg.oneNeutron)
      [DecayOp.setDecayParam "energy" 1, DecayOp.generate r1W r2W]) 2 =
    GetFinal (run Alg.oneNeutron (tntInit Alg.oneNeutron)
      [DecayOp.setDecayParam "energy" 1, DecayOp.generate r1W r2W]) 2 :=
  tnt_determinism Alg.oneNeutron (tntInit Alg.oneNeutron) (tntInit Alg.oneNeutron)
    [DecayOp.setDecayParam "energy" 1, DecayOp.generate r1W r2W]
    [DecayOp.setDecayParam "energy" 1, DecayOp.generate r1W r2W] 2 rfl rfl

theorem factoryRun_decayType (ops : List FactoryOp) :
    ∀ f : TntNeutronDecayFactory,
      (factoryRun f ops).GetDecayType = lastDecayType f.fDecayType ops := by
  induction ops with
  | nil => intro f; rfl
  | cons op rest ih =>
      intro f
      cases op with
      | setDecayType t =>
          rw [factoryRun, List.foldl_cons, ← factoryRun, ih, lastDecayType]
          rfl
      | setDecayOption k v =>
          rw [factoryRun, List.foldl_cons, ← factoryRun, ih, lastDecayType]
          rfl

/-- C10: for `TntNeutronDecayFactory` (inline in the header),
`GetDecayType()` returns exactly the string most recently passed to
`SetDecayType` — the empty string if it was never called — and no
`SetDecayOption` call, for any option name and value, changes the stored
decay type. -/
theorem tnt_factory_decay_type (ops : List FactoryOp) (f : TntNeutronDecayFactory)
    (t option : String) (value : ℚ) :
    (factoryRun TntNeutronDecayFactory.mk0 ops).GetDecayType = lastDecayType "" ops ∧
    TntNeutronDecayFactory.mk0.GetDecayType = "" ∧
    (f.SetDecayType t).GetDecayType = t ∧
    (f.SetDecayOption option value).GetDecayType = f.GetDecayType :=
  ⟨factoryRun_decayType ops TntNeutronDecayFactory.mk0, rfl, rfl, rfl⟩

/-- C2: for masses `mf + mn ≤ m0`, `TntNeutronEvaporation` produces, in the
parent's rest frame, a fragment and a neutron whose three-momenta are
back-to-back (equal magnitude, opposite direction) with squared magnitude
given by the Källén formula `λ(m0², mf², mn²)/(4 m0²)`, for any sampled
unit emission direction; the two four-vectors are on their mass shells and
sum to the parent rest four-vector, and the routine is a pure function of
its inputs (no side effect beyond the two output vectors). -/
theorem tnt_evaporation_kinematics (m0 mf mn p : ℚ) (u : Vec3)
    (hm : mf + mn ≤ m0) (h0 : 0 < m0) (hp : 0 ≤ p)
    (hpe : 4 * m0 ^ 2 * p ^ 2 = kallen (m0 ^ 2) (mf ^ 2) (mn ^ 2))
    (hu : u.normSq = 1) :
    ((TntNeutronEvaporation m0 mf mn p u).1).p3 =
      Vec3.neg (((TntNeutronEvaporation m0 mf mn p u).2).p3) ∧
    (((TntNeutronEvaporation m0 mf mn p u).2).p3).normSq * (4 * m0 ^ 2) =
      kallen (m0 ^ 2) (mf ^ 2) (mn ^ 2) ∧
    (TntNeutronEvaporation m0 mf mn p u).1 + (TntNeutronEvaporation m0 mf mn p u).2 =
      restVector m0 ∧
    ((TntNeutronEvaporation m0 mf mn p u).1).mSq = mf ^ 2 ∧
    ((TntNeutronEvaporation m0 mf mn p u).2).mSq = mn ^ 2 := by
  simp only [Vec3.normSq] at hu
  have h2m : (2 * m0) ≠ 0 := by positivity
  refine ⟨?_, ?_, evaporation_conserves m0 mf mn p u (ne_of_gt h0), ?_, ?_⟩
  · simp only [TntNeutronEvaporation, LorentzVector.p3, Vec3.neg]
  · simp only [TntNeutronEvaporation, LorentzVector.p3, Vec3.normSq]
    linear_combination (4 * m0 ^ 2 * p ^ 2) * hu + hpe
  · simp only [TntNeutronEvaporation, LorentzVector.mSq]
    rw [div_pow, div_sub' _ _ _ (pow_ne_zero 2 h2m), div_sub' _ _ _ (pow_ne_zero 2 h2m),
      div_sub' _ _ _ (pow_ne_zero 2 h2m), div_eq_iff (pow_ne_zero 2 h2m)]
    simp only [kallen] at hpe
    linear_combination (-1) * hpe + (-(4 * m0 ^ 2 * p ^ 2)) * hu
  · simp only [TntNeutronEvaporation, LorentzVector.mSq]
    rw [div_pow, div_sub' _ _ _ (pow_ne_zero 2 h2m), div_sub' _ _ _ (pow_ne_zero 2 h2m),
      div_sub' _ _ _ (pow_ne_zero 2 h2m), div_eq_iff (pow_ne_zero 2 h2m)]
    simp only [kallen] at hpe
    linear_combination (-1) * hpe + (-(4 * m0 ^ 2 * p ^ 2)) * hu

/-- Witness for C2: parent mass 10, daughters 3 and 3, momentum magnitude 4
(an exact square root of the Källén value 6400/400), direction (3/5,4/5,0). -/
theorem tnt_evaporation_kinematics_witness :
    ((TntNeutronEvaporation 10 3 3 4 uW).1).p3 =
      Vec3.neg (((TntNeutronEvaporation 10 3 3 4 uW).2).p3) ∧
    (((TntNeutronEvaporation 10 3 3 4 uW).2).p3).normSq * (4 * 10 ^ 2) =
      kallen (10 ^ 2) (3 ^ 2) (3 ^ 2) ∧
    (TntNeutronEvaporation 10 3 3 4 uW).1 + (TntNeutronEvaporation 10 3 3 4 uW).2 =
      restVector 10 ∧
    ((TntNeutronEvaporation 10 3 3 4 uW).1).mSq = 3 ^ 2 ∧
    ((TntNeutronEvaporation 10 3 3 4 uW).2).mSq = 3 ^ 2 :=
  tnt_evaporation_kinematics 10 3 3 4 uW (by norm_num) (by norm_num) (by norm_num)
    (by norm_num [kallen]) (by norm_num [Vec3.normSq, uW])

/-- The exact energetic-infeasibility condition under which each algorithm's
`Generate` reports failure (spec §4.4–§4.7, §7): a negative or unattainable
sampled decay energy for the one-neutron decay; excitation below the
two-neutron threshold or a sampled subsystem mass outside its energetically
allowed window for the two-neutron decays. -/
def failCond (alg : Alg) (st : DecayState) (part : TntParticle)
    (r1 : RngDraw1) (r2 : RngDraw2) : Prop :=
  match alg with
  | .oneNeutron => sampleDecayEnergy st r1 < 0 ∨ part.ex < sampleDecayEnergy st r1
  | .phaseSpace _ => part.ex < 0 ∨ r2.mSub < 2 * kNeutronMass ∨
      (st.mFinalFragMass + 2 * kNeutronMass + part.ex) - st.mFinalFragMass < r2.mSub
  | .diNeutron => part.ex < 0 ∨ r2.mSub < 2 * kNeutronMass ∨
      (st.mFinalFragMass + 2 * kNeutronMass + part.ex) - st.mFinalFragMass < r2.mSub
  | .sequential => part.ex < 0 ∨
      st.mFinalFragMass + 2 * kNeutronMass + part.ex <
        st.mIntermediateFragMass + r2.mSub + kNeutronMass ∨
      st.mIntermediateFragMass + r2.mSub < st.mFinalFragMass + kNeutronMass

/-- C3: with the input particle set, `Generate()` of every concrete decay
algorithm reports failure (boolean false, here `none`) exactly when the
available excitation energy cannot support the configured decay
(`failCond`); on failure the final-state store is left untouched (its
contents are the stale previous vectors, undefined for the caller), and the
failure is only ever the returned boolean — `genResult`/`step` are total
functions, so no exception, halt or internal retry exists in the model. -/
theorem tnt_generate_failure_boolean (alg : Alg) (st : DecayState) (part : TntParticle)
    (r1 : RngDraw1) (r2 : RngDraw2) (hin : st.mInitial = some part) :
    (genResult alg st r1 r2 = none ↔ failCond alg st part r1 r2) ∧
    (genResult alg st r1 r2 = none → step alg st (DecayOp.generate r1 r2) = st) := by
  constructor
  · cases alg with
    | oneNeutron =>
        simp only [genResult, oneNeutronGenerate, hin, failCond]
        by_cases hc : sampleDecayEnergy st r1 < 0 ∨ part.ex < sampleDecayEnergy st r1 <;>
          simp [hc]
    | phaseSpace fsi =>
        simp only [genResult, twoNeutronPhaseSpaceGenerate, hin, failCond]
        by_cases h1 : part.ex < 0
        · simp [h1]
        · by_cases h2 : r2.mSub < 2 * kNeutronMass ∨
            st.mFinalFragMass + 2 * kNeutronMass + part.ex - st.mFinalFragMass < r2.mSub <;>
            simp [h1, h2]
    | diNeutron =>
        simp only [genResult, twoNeutronDiNeutronGenerate, hin, failCond]
        by_cases h1 : part.ex < 0
        · simp [h1]
        · by_cases h2 : r2.mSub < 2 * kNeutronMass ∨
            st.mFinalFragMass + 2 * kNeutronMass + part.ex - st.mFinalFragMass < r2.mSub <;>
            simp [h1, h2]
    | sequential =>
        simp only [genResult, twoNeutronSequentialGenerate, hin, failCond]
        by_cases h1 : part.ex < 0
        · simp [h1]
        · by_cases h2 : st.mFinalFragMass + 2 * kNeutronMass + part.ex <
              st.mIntermediateFragMass + r2.mSub + kNeutronMass ∨
              st.mIntermediateFragMass + r2.mSub < st.mFinalFragMass + kNeutronMass <;>
            simp [h1, h2]
  · intro h
    simp [step, h]

/-- A particle at rest in the lab (identity boost) with zero excitation
energy, whose decay fragment has ground-state mass equal to the neutron
mass. -/
def partW : TntParticle := ⟨3 * kNeutronMass, 0, BoostMatrix.id, kNeutronMass, kNeutronMass⟩

/-- A particle at rest with excitation energy −1 (below threshold). -/
def partFail : TntParticle := ⟨3 * kNeutronMass, -1, BoostMatrix.id, kNeutronMass, kNeutronMass⟩

/-- The instance state of a two-neutron decay of `partW` (input set, no
parameters, fragment mass one neutron mass). -/
def stW : DecayState :=
  ⟨2, [], List.replicate 4 LorentzVector.zero, 0, kNeutronMass, some partW, none, kNeutronMass⟩

/-- The instance state of a two-neutron decay of the below-threshold
particle `partFail`. -/
def stFail : DecayState :=
  ⟨2, [], List.replicate 4 LorentzVector.zero, 0, kNeutronMass, some partFail, none, kNeutronMass⟩

/-- Witness for C3: on a dineutron instance whose input particle sits below
the two-neutron threshold (excitation −1), `Generate` fails exactly as
`failCond` prescribes and leaves the final-state store untouched. -/
theorem tnt_generate_failure_boolean_witness :
    (genResult Alg.diNeutron stFail r1W r2W = none ↔
      failCond Alg.diNeutron stFail partFail r1W r2W) ∧
    (genResult Alg.diNeutron stFail r1W r2W = none →
      step Alg.diNeutron stFail (DecayOp.generate r1W r2W) = stFail) :=
  tnt_generate_failure_boolean Alg.diNeutron stFail partFail r1W r2W rfl

theorem lv_zero_add' (a : LorentzVector) : LorentzVector.zero + a = a := lv_zero_add a

theorem lv_add_assoc (a b c : LorentzVector) : a + b + c = a + (b + c) := by
  simp only [LorentzVector.add_def, LorentzVector.mk.injEq]
  refine ⟨by ring, by ring, by ring, by ring⟩

theorem lv_add_comm (a b : LorentzVector) : a + b = b + a := by
  simp only [LorentzVector.add_def, LorentzVector.mk.injEq]
  refine ⟨by ring, by ring, by ring, by ring⟩

theorem lvSum_pair (a b : LorentzVector) : lvSum [a, b] = a + b := by
  simp only [lvSum, List.foldl, lv_add_eq, lv_zero_add']

theorem lvSum_triple (a b c : LorentzVector) : lvSum [a, b, c] = a + b + c := by
  simp only [lvSum, List.foldl, lv_add_eq, lv_zero_add']

theorem kNeutronMass_pos : 0 < kNeutronMass := by norm_num [kNeutronMass]

/-- The side condition tying the oracle-supplied inner boost of a
two-neutron generation to the subsystem four-vector it is constructed from
in the code: the boost maps the subsystem's rest four-vector to the
subsystem four-vector produced by the first two-body breakup.  Trivial for
the one-neutron decay, which has no inner frame. -/
def innerBoostOK (alg : Alg) (st : DecayState) (part : TntParticle) (r2 : RngDraw2) : Prop :=
  match alg with
  | .oneNeutron => True
  | .phaseSpace _ => r2.b.apply (restVector r2.mSub) =
      (TntNeutronEvaporation (st.mFinalFragMass + 2 * kNeutronMass + part.ex)
        st.mFinalFragMass r2.mSub r2.p1 r2.u1).2
  | .diNeutron => r2.b.apply (restVector r2.mSub) =
      (TntNeutronEvaporation (st.mFinalFragMass + 2 * kNeutronMass + part.ex)
        st.mFinalFragMass r2.mSub r2.p1 r2.u1).2
  | .sequential => r2.b.apply (restVector (st.mIntermediateFragMass + r2.mSub)) =
      (TntNeutronEvaporation (st.mFinalFragMass + 2 * kNeutronMass + part.ex)
        (st.mIntermediateFragMass + r2.mSub) kNeutronMass r2.p1 r2.u1).1

/-- C1: for every successful `Generate()` of any of the four concrete decay
algorithms (nonnegative fragment mass, inner boost built from the first
breakup as the code does), the sum of the final fragment four-vector and
all neutron four-vectors (`GetFinal(1)`, `GetFinal(2)`, ...) equals the
initial four-vector (`GetFinal(0)`) — energy-momentum conservation, exact
in the rational model. -/
theorem tnt_generate_conserves (alg : Alg) (st : DecayState) (part : TntParticle)
    (r1 : RngDraw1) (r2 : RngDraw2) (fs : List LorentzVector)
    (hin : st.mInitial = some part)
    (hmf : 0 ≤ st.mFinalFragMass)
    (hb : innerBoostOK alg st part r2)
    (hgen : genResult alg st r1 r2 = some fs) :
    lvSum fs.tail = fs.headD LorentzVector.zero := by
  have hkn := kNeutronMass_pos
  cases alg with
  | oneNeutron =>
      simp only [genResult, oneNeutronGenerate, hin] at hgen
      split at hgen
      · cases hgen
      · next hcond =>
          cases hgen
          push_neg at hcond
          simp only [List.tail_cons, List.headD_cons, lvSum_pair]
          rw [← BoostMatrix.apply_add, evaporation_conserves]
          have h1 : 0 ≤ sampleDecayEnergy st r1 := hcond.1
          intro h0
          rw [← h0] at h1
          nlinarith [hcond.1, hmf, hkn]
  | phaseSpace fsi =>
      simp only [genResult, twoNeutronPhaseSpaceGenerate, hin] at hgen
      split at hgen
      · cases hgen
      · next hex =>
          split at hgen
          · cases hgen
          · next hcond =>
              cases hgen
              push_neg at hcond hex
              simp only [innerBoostOK] at hb
              simp only [List.tail_cons, List.headD_cons, lvSum_triple]
              have hsub : r2.mSub ≠ 0 := by
                intro h
                rw [h] at hcond
                nlinarith [hcond.1, hkn]
              have hm0 : st.mFinalFragMass + 2 * kNeutronMass + part.ex ≠ 0 := by
                intro h
                nlinarith [hmf, hkn, hex]
              rw [← BoostMatrix.apply_add, ← BoostMatrix.apply_add, lv_add_assoc,
                ← BoostMatrix.apply_add, evaporation_conserves _ kNeutronMass kNeutronMass
                  r2.p2 r2.u2 hsub, hb, evaporation_conserves _ _ _ _ _ hm0]
  | diNeutron =>
      simp only [genResult, twoNeutronDiNeutronGenerate, hin] at hgen
      split at hgen
      · cases hgen
      · next hex =>
          split at hgen
          · cases hgen
          · next hcond =>
              cases hgen
              push_neg at hcond hex
              simp only [innerBoostOK] at hb
              simp only [List.tail_cons, List.headD_cons, lvSum_triple]
              have hsub : r2.mSub ≠ 0 := by
                intro h
                rw [h] at hcond
                nlinarith [hcond.1, hkn]
              have hm0 : st.mFinalFragMass + 2 * kNeutronMass + part.ex ≠ 0 := by
                intro h
                nlinarith [hmf, hkn, hex]
              rw [← BoostMatrix.apply_add, ← BoostMatrix.apply_add, lv_add_assoc,
                ← BoostMatrix.apply_add, evaporation_conserves _ kNeutronMass kNeutronMass
                  r2.p2 r2.u2 hsub, hb, evaporation_conserves _ _ _ _ _ hm0]
  | sequential =>
      simp only [genResult, twoNeutronSequentialGenerate, hin] at hgen
      split at hgen
      · cases hgen
      · next hex =>
          split at hgen
          · cases hgen
          · next hcond =>
              cases hgen
              push_neg at hcond hex
              simp only [innerBoostOK] at hb
              simp only [List.tail_cons, List.headD_cons, lvSum_triple]
              have hmi : st.mIntermediateFragMass + r2.mSub ≠ 0 := by
                intro h
                nlinarith [hcond.2, hmf, hkn]
              have hm0 : st.mFinalFragMass + 2 * kNeutronMass + part.ex ≠ 0 := by
                intro h
                nlinarith [hcond.1, hcond.2, hkn]
              set E1 := TntNeutronEvaporation
                (st.mFinalFragMass + 2 * kNeutronMass + part.ex)
                (st.mIntermediateFragMass + r2.mSub) kNeutronMass r2.p1 r2.u1
              set E2 := TntNeutronEvaporation (st.mIntermediateFragMass + r2.mSub)
                st.mFinalFragMass kNeutronMass r2.p2 r2.u2
              rw [← BoostMatrix.apply_add, ← BoostMatrix.apply_add]
              congr 1
              rw [lv_add_comm (r2.b.apply E2.1) E1.2, lv_add_assoc, ← BoostMatrix.apply_add,
                evaporation_conserves _ _ _ _ _ hmi, hb, lv_add_comm E1.2 E1.1]
              exact evaporation_conserves _ _ _ _ _ hm0

/-- The final-state list of a dineutron decay of `partW` from `stW`: parent
of mass `3 mN` at rest splitting into a fragment of mass `mN` and a
dineutron of mass `2 mN`, all relative momenta zero (the Källén value
vanishes at this threshold configuration). -/
def fsW : List LorentzVector :=
  [restVector (3 * kNeutronMass), restVector kNeutronMass,
   restVector kNeutronMass, restVector kNeutronMass]

/-- Witness for C1: the dineutron generation from `stW` succeeds with
final-state list `fsW`, and fragment + neutron + neutron equals the initial
four-vector. -/
theorem tnt_generate_conserves_witness :
    lvSum (List.tail fsW) = List.headD fsW LorentzVector.zero :=
  tnt_generate_conserves Alg.diNeutron stW partW r1W r2W fsW rfl
    (by norm_num [stW, kNeutronMass])
    (by norm_num [innerBoostOK, stW, partW, r2W, uW, TntNeutronEvaporation,
      BoostMatrix.apply, BoostMatrix.id, restVector, kNeutronMass])
    (by norm_num [genResult, twoNeutronDiNeutronGenerate, stW, partW, r2W, uW,
      TntNeutronEvaporation, BoostMatrix.apply, BoostMatrix.id, restVector,
      kNeutronMass, fsW, LorentzVector.zero])

/-- C8: every successful `Generate()` of `TntTwoNeutronDecayPhaseSpace`
(over any number of trials — the statement is universal in the draws) has
its sampled neutron-neutron invariant mass inside the kinematically allowed
range fixed by the three final masses and the available energy,
`2 mN ≤ m(nn) ≤ 2 mN + ex`; and when the boosts are genuine Lorentz
transformations the invariant mass of the two produced neutron four-vectors
(`GetFinal(2) + GetFinal(3)`) reproduces that sampled mass exactly — no
sample violates the Dalitz boundary. -/
theorem tnt_phase_space_boundary (fsi : Bool) (st : DecayState) (part : TntParticle)
    (r2 : RngDraw2) (fs : List LorentzVector)
    (hin : st.mInitial = some part)
    (hgen : twoNeutronPhaseSpaceGenerate fsi st r2 = some fs) :
    2 * kNeutronMass ≤ r2.mSub ∧
    r2.mSub ≤ 2 * kNeutronMass + part.ex ∧
    (IsLorentz part.boost → IsLorentz r2.b →
      LorentzVector.mSq ((fs.get? 2).getD LorentzVector.zero +
        (fs.get? 3).getD LorentzVector.zero) = r2.mSub ^ 2) := by
  simp only [twoNeutronPhaseSpaceGenerate, hin] at hgen
  split at hgen
  · cases hgen
  · next hex =>
      split at hgen
      · cases hgen
      · next hcond =>
          cases hgen
          push_neg at hcond hex
          have hkn := kNeutronMass_pos
          refine ⟨hcond.1, by linarith [hcond.2], ?_⟩
          intro hL1 hL2
          have hsub : r2.mSub ≠ 0 := by
            intro h
            rw [h] at hcond
            nlinarith [hcond.1, hkn]
          simp only [List.get?]
          rw [Option.getD_some, Option.getD_some, ← BoostMatrix.apply_add,
            ← BoostMatrix.apply_add,
            evaporation_conserves _ kNeutronMass kNeutronMass r2.p2 r2.u2 hsub,
            hL1.mSq_apply, hL2.mSq_apply]
          simp only [LorentzVector.mSq, restVector]
          ring

/-- Witness for C8: the successful phase-space generation from `stW` (with
FSI enabled) sampled the nn mass `2 mN`, which lies on the boundary of the
allowed range, and the two neutron vectors of `fsW` reproduce it. -/
theorem tnt_phase_space_boundary_witness :
    2 * kNeutronMass ≤ r2W.mSub ∧
    r2W.mSub ≤ 2 * kNeutronMass + partW.ex ∧
    (IsLorentz partW.boost → IsLorentz r2W.b →
      LorentzVector.mSq ((fsW.get? 2).getD LorentzVector.zero +
        (fsW.get? 3).getD LorentzVector.zero) = r2W.mSub ^ 2) :=
  tnt_phase_space_boundary true stW partW r2W fsW rfl
    (by norm_num [twoNeutronPhaseSpaceGenerate, stW, partW, r2W, uW,
      TntNeutronEvaporation, BoostMatrix.apply, BoostMatrix.id, restVector,
      kNeutronMass, fsW, LorentzVector.zero])
